import Mathlib

/-!
Verification of the fee-policy decision core of lndmanage
(`lndmanage/lib/fee_setting.py`), shallowly embedded over exact rationals.
Python floats are modelled as `ℚ`, Python `round(x, 6)` as round-half-to-even
at six decimal places, and Python `int(x)` as truncation toward zero.
-/

namespace FeeSetting

/-- fee_lock_rate is used to disable forwardings of a channel via fees
(`FEE_LOCK_RATE = 0.025` in fee_setting.py). -/
def FEE_LOCK_RATE : ℚ := 25 / 1000

/-- threshold_ub_open is the value of unbalancedness below which the channel
goes into full open mode if no forwardings were happening. -/
def THRESHOLD_UB_OPEN : ℚ := -(5 / 10)

/-- threshold_ub_close is the value of unbalancedness above which the channel
goes into closed mode. -/
def THRESHOLD_UB_CLOSE : ℚ := 95 / 100

/-- Round a rational to the nearest integer, ties to even
(the behaviour of Python's builtin `round`). -/
def pyRoundInt (q : ℚ) : ℤ :=
  let f := ⌊q⌋
  let frac := q - f
  if frac < 1 / 2 then f
  else if 1 / 2 < frac then f + 1
  else if f % 2 = 0 then f else f + 1

/-- Python's `round(q, 6)`: round to six decimal places. -/
def round6 (q : ℚ) : ℚ := (pyRoundInt (q * 1000000) : ℚ) / 1000000

/-- Python's `int(q)`: truncation toward zero. -/
def pyInt (q : ℚ) : ℤ := if 0 ≤ q then ⌊q⌋ else ⌈q⌉

/-- The configuration fixed for one run of `FeeSetter.set_fees`
(arguments of `set_fees` stored on `self`). -/
structure Config where
  cltv : ℤ
  min_base_fee_msat : ℤ
  max_base_fee_msat : ℤ
  min_fee_rate : ℚ
  max_fee_rate : ℚ
  time_interval_days : ℚ
  init : Bool

/-- One entry of the `channels` snapshot handed to `new_fee_policy`
(the fields the loop body reads). -/
structure Channel where
  channel_id : ℤ
  channel_point : String
  unbalancedness : ℚ
  capacity : ℤ

/-- One entry of `channels_forwarding_stats` (the fields the loop body reads). -/
structure ChannelStats where
  flow_direction : ℚ
  fees_total : ℚ
  total_forwarding_in : ℚ
  total_forwarding_out : ℚ
  number_forwardings : ℤ
  number_forwardings_out : ℚ

/-- A current channel fee policy as read from `self.channel_fee_policies`. -/
structure FeePolicy where
  base_fee_msat : ℤ
  fee_rate : ℚ

/-- An output policy entry as written into the result of `new_fee_policy`. -/
structure OutPolicy where
  base_fee_msat : ℤ
  fee_rate : ℚ
  cltv : ℤ
deriving DecidableEq

/-- `FeeSetter.factor_unbalancedness` (fee_setting.py lines 249-271). -/
def factor_unbalancedness (ub : ℚ) : ℚ :=
  let c_max : ℚ := 5 / 10
  let rescale : ℚ := 5 / 10
  let c := 1 + ub * rescale
  if c > 1 then min c (1 + c_max) else max c (1 - c_max)

/-- `FeeSetter.factor_flow` (fee_setting.py lines 273-293). -/
def factor_flow (flow : ℚ) : ℚ :=
  let c_max : ℚ := 5 / 10
  let rescale : ℚ := 5 / 10
  let c := 1 + flow * rescale
  if c > 1 then min c (1 + c_max) else max c (1 - c_max)

/-- `FeeSetter.factor_demand_fee_rate` (fee_setting.py lines 295-322);
`time_interval_days` is `self.time_interval_days`. -/
def factor_demand_fee_rate (time_interval_days amount_out : ℚ) : ℚ :=
  let rate := amount_out / time_interval_days
  let c_min : ℚ := 25 / 100
  let c_max : ℚ := 1
  let rate_target : ℚ := 500000 / 7
  let c := c_min * (rate / rate_target - 1) + 1
  min c (1 + c_max)

/-- `FeeSetter.factor_demand_base_fee` (fee_setting.py lines 324-344). -/
def factor_demand_base_fee (time_interval_days num_fwd_out : ℚ) : ℚ :=
  let c_min : ℚ := 25 / 100
  let c_max : ℚ := 1
  let num_fwd_target : ℚ := 5 / 7
  let c := c_min * (num_fwd_out / time_interval_days / num_fwd_target - 1) + 1
  min c (1 + c_max)

/-- The weighted change of the fee-rate factors (fee_setting.py lines 146-163):
weights `wgt_demand = 1.3`, `wgt_ub = 1.0`, `wgt_flow = 0.6`, except that
`wgt_flow` is zeroed when `total_forwarding = 0`. -/
def weightedChange (cfg : Config) (ub flow total_forwarding total_forwarding_out : ℚ) : ℚ :=
  let wgt_demand : ℚ := 13 / 10
  let wgt_ub : ℚ := 1
  let wgt_flow : ℚ := if total_forwarding = 0 then 0 else 6 / 10
  (wgt_ub * factor_unbalancedness ub +
   wgt_flow * factor_flow flow +
   wgt_demand * factor_demand_fee_rate cfg.time_interval_days total_forwarding_out) /
  (wgt_ub + wgt_flow + wgt_demand)

/-- The fee-rate part of the loop body of `FeeSetter.new_fee_policy`
(fee_setting.py lines 143-209): initialization branch, steady-state branch
with rounding and clamping, then the two hysteretic threshold-mode blocks. -/
def feeRateNew (cfg : Config)
    (ub flow total_forwarding total_forwarding_out fee_rate : ℚ) : ℚ :=
  let weighted_change := weightedChange cfg ub flow total_forwarding total_forwarding_out
  if cfg.init then
    if weighted_change < 1 then cfg.min_fee_rate else cfg.max_fee_rate / 2
  else
    let clamped := min (max cfg.min_fee_rate (round6 (fee_rate * weighted_change)))
      cfg.max_fee_rate
    let low_ub :=
      if fee_rate ≤ cfg.min_fee_rate ∧ ub < THRESHOLD_UB_OPEN ∧ total_forwarding_out = 0 then
        0
      else if fee_rate = 0 ∧ 0 < total_forwarding_out ∧ THRESHOLD_UB_OPEN < ub then
        cfg.min_fee_rate
      else clamped
    if THRESHOLD_UB_CLOSE < ub ∧ total_forwarding_out = 0 then
      FEE_LOCK_RATE
    else if fee_rate = FEE_LOCK_RATE ∧ ub < THRESHOLD_UB_CLOSE then
      cfg.max_fee_rate / 2
    else low_ub

/-- The base-fee part of the loop body of `FeeSetter.new_fee_policy`
(fee_setting.py lines 214-224). -/
def baseFeeNew (cfg : Config) (base_fee_msat : ℤ) (number_forwardings_out : ℚ) : ℤ :=
  let factor_base_fee := factor_demand_base_fee cfg.time_interval_days number_forwardings_out
  if cfg.init then
    if factor_base_fee < 1 then cfg.min_base_fee_msat else cfg.max_base_fee_msat
  else
    pyInt (max (cfg.min_base_fee_msat : ℚ) ((base_fee_msat : ℚ) * factor_base_fee))

/-- One full iteration of the loop of `FeeSetter.new_fee_policy` for a single
channel: ingest the optional forwarding stats (defaulting to zero activity),
read the current policy by `channel_point`, and produce the output entry. -/
def policyFor (cfg : Config) (ch : Channel) (stats : Option ChannelStats)
    (channel_fee_policies : String → FeePolicy) : OutPolicy :=
  let flow := match stats with | none => 0 | some s => s.flow_direction
  let total_forwarding_in := match stats with | none => 0 | some s => s.total_forwarding_in
  let total_forwarding_out := match stats with | none => 0 | some s => s.total_forwarding_out
  let total_forwarding := total_forwarding_in + total_forwarding_out
  let number_forwardings_out :=
    match stats with | none => 0 | some s => s.number_forwardings_out
  let fee_rate := (channel_fee_policies ch.channel_point).fee_rate
  let base_fee_msat := (channel_fee_policies ch.channel_point).base_fee_msat
  { base_fee_msat := baseFeeNew cfg base_fee_msat number_forwardings_out,
    fee_rate := feeRateNew cfg ch.unbalancedness flow total_forwarding
      total_forwarding_out fee_rate,
    cltv := cfg.cltv }

/-- Insertion into an association list with Python-dict semantics: an existing
key keeps its position and gets the new value, a new key is appended. -/
def dictInsert (k : String) (v : OutPolicy) :
    List (String × OutPolicy) → List (String × OutPolicy)
  | [] => [(k, v)]
  | (k0, v0) :: rest =>
      if k0 = k then (k0, v) :: rest else (k0, v0) :: dictInsert k v rest

/-- `FeeSetter.new_fee_policy` (fee_setting.py lines 89-247): iterate the
channel snapshot in order and build the output policy dict keyed by
`channel_point`. -/
def new_fee_policy (cfg : Config) (channels : List Channel)
    (channels_forwarding_stats : ℤ → Option ChannelStats)
    (channel_fee_policies : String → FeePolicy) : List (String × OutPolicy) :=
  channels.foldl
    (fun acc ch =>
      dictInsert ch.channel_point
        (policyFor cfg ch (channels_forwarding_stats ch.channel_id) channel_fee_policies)
        acc)
    []

/-- Agreement of two channel snapshots on every field `new_fee_policy` uses
except `capacity`. -/
def chanAgree (c d : Channel) : Prop :=
  c.channel_id = d.channel_id ∧ c.channel_point = d.channel_point ∧
  c.unbalancedness = d.unbalancedness

/-- Agreement of two forwarding-statistics entries on every field
`new_fee_policy` uses except `fees_total` and `number_forwardings`. -/
def statsAgree (s t : ChannelStats) : Prop :=
  s.flow_direction = t.flow_direction ∧
  s.total_forwarding_in = t.total_forwarding_in ∧
  s.total_forwarding_out = t.total_forwarding_out ∧
  s.number_forwardings_out = t.number_forwardings_out

/-- `statsAgree` lifted to optional entries: both absent, or both present
and agreeing. -/
def optStatsAgree : Option ChannelStats → Option ChannelStats → Prop
  | none, none => True
  | some s, some t => statsAgree s t
  | _, _ => False

/-- A configuration with a narrow fee band (`max_fee_rate < 2 * min_fee_rate`)
in initialization mode. -/
def cfgInitTight : Config :=
  { cltv := 14, min_base_fee_msat := 20, max_base_fee_msat := 400,
    min_fee_rate := 2 / 10000, max_fee_rate := 3 / 10000,
    time_interval_days := 7, init := true }

/-- A steady-state configuration with the default `set_fees` parameters. -/
def cfgSteady : Config :=
  { cltv := 14, min_base_fee_msat := 20, max_base_fee_msat := 400,
    min_fee_rate := 4 / 1000000, max_fee_rate := 1 / 10000,
    time_interval_days := 7, init := false }

/-- A concrete fully unbalanced channel. -/
def chanA : Channel :=
  { channel_id := 1, channel_point := "cp1", unbalancedness := 1,
    capacity := 1000000 }

/-- A second concrete channel with a distinct `channel_point`. -/
def chanB : Channel :=
  { channel_id := 2, channel_point := "cp2", unbalancedness := -(1 / 4),
    capacity := 500000 }

/-- Concrete forwarding statistics: strong outward activity on every channel. -/
def statsA : ℤ → Option ChannelStats := fun _ =>
  some { flow_direction := 1, fees_total := 0, total_forwarding_in := 0,
         total_forwarding_out := 500000, number_forwardings := 1,
         number_forwardings_out := 1 }

/-- Concrete current fee policies: every channel at base fee 100 msat and
fee rate 0.0001. -/
def polsA : String → FeePolicy := fun _ => { base_fee_msat := 100, fee_rate := 1 / 10000 }

/-- `chanA` with a different capacity and everything else equal. -/
def chanA2 : Channel :=
  { channel_id := 1, channel_point := "cp1", unbalancedness := 1,
    capacity := 2000000 }

/-- `statsA` with different `fees_total` and `number_forwardings` and
everything else equal. -/
def statsA2 : ℤ → Option ChannelStats := fun _ =>
  some { flow_direction := 1, fees_total := 12345, total_forwarding_in := 0,
         total_forwarding_out := 500000, number_forwardings := 9,
         number_forwardings_out := 1 }

theorem round6_zero : round6 0 = 0 := by
  norm_num [round6, pyRoundInt]

/-- Claim C3: the weighted change equals the weighted sum of the three factors
with weights `wgt_ub = 1`, `wgt_flow = 0.6`, `wgt_demand = 1.3`, divided by the
sum of the weights, except that `wgt_flow` is set to `0` in both numerator and
denominator when `total_forwarding_in + total_forwarding_out = 0`, so that the
flow factor then has no influence on the result. -/
theorem C3_weightedChange_formula (cfg : Config) (ub flow g tf tfo : ℚ) :
    weightedChange cfg ub flow tf tfo =
      (1 * factor_unbalancedness ub +
       (if tf = 0 then 0 else 6 / 10) * factor_flow flow +
       (13 / 10) * factor_demand_fee_rate cfg.time_interval_days tfo) /
      (1 + (if tf = 0 then 0 else 6 / 10) + 13 / 10) ∧
    (tf = 0 → weightedChange cfg ub flow tf tfo = weightedChange cfg ub g tf tfo) := by
  constructor
  · rfl
  · intro h
    simp [weightedChange, h]

/-- Claim C3 witness: at `total_forwarding = 0` the result does not depend on
the flow input. -/
theorem C3_weightedChange_formula_witness :
    weightedChange cfgSteady 0 (1 / 2) 0 5 = weightedChange cfgSteady 0 (3 / 4) 0 5 :=
  (C3_weightedChange_formula cfgSteady 0 (1 / 2) (3 / 4) 0 5).2 rfl

/-- Claim C4: in a non-initialization run, a channel with unbalancedness above
`THRESHOLD_UB_CLOSE = 0.95` and zero outward forwarding gets fee rate
`FEE_LOCK_RATE = 0.025`, regardless of its current fee rate and of the
open-mode rules. -/
theorem C4_locked_mode (cfg : Config) (ub flow tf tfo fr : ℚ)
    (hinit : cfg.init = false) (h1 : THRESHOLD_UB_CLOSE < ub) (h2 : tfo = 0) :
    feeRateNew cfg ub flow tf tfo fr = FEE_LOCK_RATE := by
  simp only [feeRateNew, hinit, Bool.false_eq_true, if_false]
  rw [if_pos ⟨h1, h2⟩]

/-- Claim C4 witness: a concrete channel at `ub = 0.98` with no outward
forwardings is locked at fee rate `0.025`. -/
theorem C4_locked_mode_witness :
    feeRateNew cfgSteady (98 / 100) 0 0 0 (1 / 10000) = FEE_LOCK_RATE :=
  C4_locked_mode cfgSteady (98 / 100) 0 0 0 (1 / 10000) rfl
    (by norm_num [THRESHOLD_UB_CLOSE]) rfl

/-- Claim C7: for `ub ∈ [-1, 1]`, `factor_unbalancedness ub` is
`1 + 0.5 * ub` clamped from above by `1.5` when above `1` and from below by
`0.5` otherwise, and both it and `factor_flow` on `[-1, 1]` lie in
`[0.5, 1.5]`. -/
theorem C7_factor_bounds (ub flow : ℚ) (hu1 : -1 ≤ ub) (hu2 : ub ≤ 1)
    (hf1 : -1 ≤ flow) (hf2 : flow ≤ 1) :
    factor_unbalancedness ub =
      (if 1 + ub * (1 / 2) > 1 then min (1 + ub * (1 / 2)) (3 / 2)
       else max (1 + ub * (1 / 2)) (1 / 2)) ∧
    (1 / 2 ≤ factor_unbalancedness ub ∧ factor_unbalancedness ub ≤ 3 / 2) ∧
    (1 / 2 ≤ factor_flow flow ∧ factor_flow flow ≤ 3 / 2) := by
  refine ⟨?_, ?_, ?_⟩
  · simp only [factor_unbalancedness]
    norm_num
  · simp only [factor_unbalancedness]
    split_ifs with h
    · exact ⟨le_min (by linarith) (by norm_num), (min_le_right _ _).trans (by norm_num)⟩
    · exact ⟨(by norm_num : (1:ℚ)/2 ≤ 1 - 5/10).trans (le_max_right _ _),
        max_le (by linarith) (by norm_num)⟩
  · simp only [factor_flow]
    split_ifs with h
    · exact ⟨le_min (by linarith) (by norm_num), (min_le_right _ _).trans (by norm_num)⟩
    · exact ⟨(by norm_num : (1:ℚ)/2 ≤ 1 - 5/10).trans (le_max_right _ _),
        max_le (by linarith) (by norm_num)⟩

/-- Claim C7 witness at `ub = 1/2`, `flow = -1/2`. -/
theorem C7_factor_bounds_witness :
    factor_unbalancedness (1 / 2) =
      (if 1 + (1 / 2 : ℚ) * (1 / 2) > 1 then min (1 + (1 / 2 : ℚ) * (1 / 2)) (3 / 2)
       else max (1 + (1 / 2 : ℚ) * (1 / 2)) (1 / 2)) ∧
    (1 / 2 ≤ factor_unbalancedness (1 / 2) ∧ factor_unbalancedness (1 / 2) ≤ 3 / 2) ∧
    (1 / 2 ≤ factor_flow (-(1 / 2)) ∧ factor_flow (-(1 / 2)) ≤ 3 / 2) :=
  C7_factor_bounds (1 / 2) (-(1 / 2)) (by norm_num) (by norm_num) (by norm_num) (by norm_num)

/-- Claim C10: for `amount_out ≥ 0`, `num_fwd_out ≥ 0` and a positive time
interval, both demand factors lie in `[0.75, 2]`: the formula
`0.25 * (rate / rate_target - 1) + 1` is bounded below by `0.75` because the
rate is nonnegative, despite the absence of an explicit lower clamp. -/
theorem C10_demand_factor_bounds (days a n : ℚ) (hd : 0 < days) (ha : 0 ≤ a)
    (hn : 0 ≤ n) :
    (3 / 4 ≤ factor_demand_fee_rate days a ∧ factor_demand_fee_rate days a ≤ 2) ∧
    (3 / 4 ≤ factor_demand_base_fee days n ∧ factor_demand_base_fee days n ≤ 2) := by
  have h1 : (0 : ℚ) ≤ a / days / (500000 / 7) :=
    div_nonneg (div_nonneg ha hd.le) (by norm_num)
  have h2 : (0 : ℚ) ≤ n / days / (5 / 7) :=
    div_nonneg (div_nonneg hn hd.le) (by norm_num)
  constructor
  · simp only [factor_demand_fee_rate]
    exact ⟨le_min (by linarith) (by norm_num), (min_le_right _ _).trans (by norm_num)⟩
  · simp only [factor_demand_base_fee]
    exact ⟨le_min (by linarith) (by norm_num), (min_le_right _ _).trans (by norm_num)⟩

/-- Claim C10 witness at one week, `amount_out = 1000`, `num_fwd_out = 2`. -/
theorem C10_demand_factor_bounds_witness :
    (3 / 4 ≤ factor_demand_fee_rate 7 1000 ∧ factor_demand_fee_rate 7 1000 ≤ 2) ∧
    (3 / 4 ≤ factor_demand_base_fee 7 2 ∧ factor_demand_base_fee 7 2 ≤ 2) :=
  C10_demand_factor_bounds 7 1000 2 (by norm_num) (by norm_num) (by norm_num)

/-- Claim C2: in a non-initialization run in which none of the four
threshold-mode conditions holds, the new fee rate is the current fee rate
times the weighted change, rounded to six decimal places and clamped to
`[min_fee_rate, max_fee_rate]`; with `min_fee_rate ≤ max_fee_rate` the result
lies in that band. -/
theorem C2_steady_state (cfg : Config) (ub flow tf tfo fr : ℚ)
    (hinit : cfg.init = false)
    (h1 : ¬(fr ≤ cfg.min_fee_rate ∧ ub < THRESHOLD_UB_OPEN ∧ tfo = 0))
    (h2 : ¬(fr = 0 ∧ 0 < tfo ∧ THRESHOLD_UB_OPEN < ub))
    (h3 : ¬(THRESHOLD_UB_CLOSE < ub ∧ tfo = 0))
    (h4 : ¬(fr = FEE_LOCK_RATE ∧ ub < THRESHOLD_UB_CLOSE))
    (hb : cfg.min_fee_rate ≤ cfg.max_fee_rate) :
    feeRateNew cfg ub flow tf tfo fr =
      min (max cfg.min_fee_rate (round6 (fr * weightedChange cfg ub flow tf tfo)))
        cfg.max_fee_rate ∧
    cfg.min_fee_rate ≤ feeRateNew cfg ub flow tf tfo fr ∧
    feeRateNew cfg ub flow tf tfo fr ≤ cfg.max_fee_rate := by
  have heq : feeRateNew cfg ub flow tf tfo fr =
      min (max cfg.min_fee_rate (round6 (fr * weightedChange cfg ub flow tf tfo)))
        cfg.max_fee_rate := by
    simp only [feeRateNew, hinit, Bool.false_eq_true, if_false]
    rw [if_neg h3, if_neg h4, if_neg h1, if_neg h2]
  refine ⟨heq, ?_, ?_⟩
  · rw [heq]
    exact le_min (le_max_left _ _) hb
  · rw [heq]
    exact min_le_right _ _

/-- Claim C2 witness: a concrete balanced, inactive channel at fee rate
`0.00005` under the default configuration. -/
theorem C2_steady_state_witness :
    feeRateNew cfgSteady 0 0 0 0 (5 / 100000) =
      min (max cfgSteady.min_fee_rate
        (round6 ((5 / 100000) * weightedChange cfgSteady 0 0 0 0)))
        cfgSteady.max_fee_rate ∧
    cfgSteady.min_fee_rate ≤ feeRateNew cfgSteady 0 0 0 0 (5 / 100000) ∧
    feeRateNew cfgSteady 0 0 0 0 (5 / 100000) ≤ cfgSteady.max_fee_rate :=
  C2_steady_state cfgSteady 0 0 0 0 (5 / 100000) rfl
    (by norm_num [cfgSteady, THRESHOLD_UB_OPEN])
    (by norm_num)
    (by norm_num [THRESHOLD_UB_CLOSE])
    (by norm_num [FEE_LOCK_RATE])
    (by norm_num [cfgSteady])

/-- Claim C5: with `min_base_fee_msat ≥ 0`, the steady-state output base fee
is `max(min_base_fee_msat, ⌊current * factor_base_fee⌋)`, hence at least
`min_base_fee_msat`; an initialization run yields exactly `min_base_fee_msat`
when the factor is below `1` and exactly `max_base_fee_msat` otherwise. -/
theorem C5_base_fee (cfg : Config) (bf : ℤ) (nfo : ℚ)
    (hmin : 0 ≤ cfg.min_base_fee_msat) :
    (cfg.init = false →
      baseFeeNew cfg bf nfo =
        max cfg.min_base_fee_msat
          ⌊(bf : ℚ) * factor_demand_base_fee cfg.time_interval_days nfo⌋ ∧
      cfg.min_base_fee_msat ≤ baseFeeNew cfg bf nfo) ∧
    (cfg.init = true →
      baseFeeNew cfg bf nfo =
        if factor_demand_base_fee cfg.time_interval_days nfo < 1
        then cfg.min_base_fee_msat else cfg.max_base_fee_msat) := by
  constructor
  · intro hinit
    have hcast : (0 : ℚ) ≤ (cfg.min_base_fee_msat : ℚ) := by exact_mod_cast hmin
    have hx : (0 : ℚ) ≤ max (cfg.min_base_fee_msat : ℚ)
        ((bf : ℚ) * factor_demand_base_fee cfg.time_interval_days nfo) :=
      hcast.trans (le_max_left _ _)
    have heq : baseFeeNew cfg bf nfo =
        ⌊max (cfg.min_base_fee_msat : ℚ)
          ((bf : ℚ) * factor_demand_base_fee cfg.time_interval_days nfo)⌋ := by
      simp only [baseFeeNew, hinit, Bool.false_eq_true, if_false, pyInt, if_pos hx]
    have hswap : ⌊max (cfg.min_base_fee_msat : ℚ)
        ((bf : ℚ) * factor_demand_base_fee cfg.time_interval_days nfo)⌋ =
        max cfg.min_base_fee_msat
          ⌊(bf : ℚ) * factor_demand_base_fee cfg.time_interval_days nfo⌋ := by
      rcases le_total ((bf : ℚ) * factor_demand_base_fee cfg.time_interval_days nfo)
          (cfg.min_base_fee_msat : ℚ) with hle | hle
      · rw [max_eq_left hle, Int.floor_intCast,
          max_eq_left (by simpa using Int.floor_le_floor hle)]
      · rw [max_eq_right hle,
          max_eq_right (by simpa using Int.floor_le_floor hle)]
    rw [heq, hswap]
    exact ⟨rfl, le_max_left _ _⟩
  · intro hinit
    simp only [baseFeeNew, hinit, if_true]

/-- Claim C5 witness: base fee 100 msat, one outward forwarding, default
steady-state configuration. -/
theorem C5_base_fee_witness :
    (cfgSteady.init = false →
      baseFeeNew cfgSteady 100 1 =
        max cfgSteady.min_base_fee_msat
          ⌊(100 : ℚ) * factor_demand_base_fee cfgSteady.time_interval_days 1⌋ ∧
      cfgSteady.min_base_fee_msat ≤ baseFeeNew cfgSteady 100 1) ∧
    (cfgSteady.init = true →
      baseFeeNew cfgSteady 100 1 =
        if factor_demand_base_fee cfgSteady.time_interval_days 1 < 1
        then cfgSteady.min_base_fee_msat else cfgSteady.max_base_fee_msat) :=
  C5_base_fee cfgSteady 100 1 (by norm_num [cfgSteady])

/-- Claim C8: a channel in open mode (current fee rate exactly 0) with no
outward forwardings and unbalancedness in `[-0.5, 0.95]` silently leaves open
mode: no threshold rule fires and the lower clamp lifts the rounded product
`0` up to `min_fee_rate`, provided `0 < min_fee_rate ≤ max_fee_rate`. -/
theorem C8_silent_open_exit (cfg : Config) (ub flow tf : ℚ)
    (hinit : cfg.init = false)
    (h1 : THRESHOLD_UB_OPEN ≤ ub) (h2 : ub ≤ THRESHOLD_UB_CLOSE)
    (h3 : 0 < cfg.min_fee_rate) (h4 : cfg.min_fee_rate ≤ cfg.max_fee_rate) :
    feeRateNew cfg ub flow tf 0 0 = cfg.min_fee_rate := by
  simp only [feeRateNew, hinit, Bool.false_eq_true, if_false]
  rw [if_neg (fun h => absurd h.1 (not_lt.mpr h2)),
    if_neg (fun h => absurd h.1 (by norm_num [FEE_LOCK_RATE])),
    if_neg (fun h => absurd h.2.1 (not_lt.mpr h1)),
    if_neg (fun h => absurd h.2.1 (lt_irrefl 0)),
    zero_mul, round6_zero, max_eq_left h3.le, min_eq_left h4]

/-- Claim C8 witness: a perfectly balanced inactive channel at fee rate 0
under the default configuration ends at `min_fee_rate`. -/
theorem C8_silent_open_exit_witness :
    feeRateNew cfgSteady 0 0 0 0 0 = cfgSteady.min_fee_rate :=
  C8_silent_open_exit cfgSteady 0 0 0 rfl
    (by norm_num [THRESHOLD_UB_OPEN])
    (by norm_num [THRESHOLD_UB_CLOSE])
    (by norm_num [cfgSteady])
    (by norm_num [cfgSteady])

theorem mem_dictInsert {k : String} {v : OutPolicy} {l : List (String × OutPolicy)}
    {p : String × OutPolicy} (h : p ∈ dictInsert k v l) : p.2 = v ∨ p ∈ l := by
  induction l with
  | nil =>
      simp only [dictInsert, List.mem_singleton] at h
      exact Or.inl (by rw [h])
  | cons q rest ih =>
      rcases q with ⟨k0, v0⟩
      simp only [dictInsert] at h
      split_ifs at h with hk
      · rcases List.mem_cons.mp h with h | h
        · exact Or.inl (by rw [h])
        · exact Or.inr (List.mem_cons_of_mem _ h)
      · rcases List.mem_cons.mp h with h | h
        · exact Or.inr (by rw [h]; exact List.mem_cons_self _ _)
        · rcases ih h with h2 | h2
          · exact Or.inl h2
          · exact Or.inr (List.mem_cons_of_mem _ h2)

theorem foldl_dictInsert_values (P : OutPolicy → Prop) (f : Channel → OutPolicy)
    (channels : List Channel) :
    ∀ acc : List (String × OutPolicy), (∀ p ∈ acc, P p.2) →
      (∀ ch ∈ channels, P (f ch)) →
      ∀ p ∈ channels.foldl (fun acc ch => dictInsert ch.channel_point (f ch) acc) acc,
        P p.2 := by
  induction channels with
  | nil =>
      intro acc hacc _ p hp
      exact hacc p hp
  | cons ch rest ih =>
      intro acc hacc hch p hp
      refine ih (dictInsert ch.channel_point (f ch) acc) ?_
        (fun c hc => hch c (List.mem_cons_of_mem _ hc)) p hp
      intro q hq
      rcases mem_dictInsert hq with h | h
      · rw [h]
        exact hch ch (List.mem_cons_self _ _)
      · exact hacc q h

theorem new_fee_policy_values (cfg : Config) (channels : List Channel)
    (stats : ℤ → Option ChannelStats) (pols : String → FeePolicy)
    (P : OutPolicy → Prop)
    (h : ∀ ch ∈ channels, P (policyFor cfg ch (stats ch.channel_id) pols)) :
    ∀ p ∈ new_fee_policy cfg channels stats pols, P p.2 :=
  foldl_dictInsert_values P (fun ch => policyFor cfg ch (stats ch.channel_id) pols)
    channels [] (fun p hp => absurd hp (List.not_mem_nil p)) h

theorem feeRateNew_mem (cfg : Config) (ub flow tf tfo fr : ℚ)
    (h0 : 0 ≤ cfg.min_fee_rate) (h1 : 2 * cfg.min_fee_rate ≤ cfg.max_fee_rate) :
    (cfg.min_fee_rate ≤ feeRateNew cfg ub flow tf tfo fr ∧
     feeRateNew cfg ub flow tf tfo fr ≤ cfg.max_fee_rate) ∨
    feeRateNew cfg ub flow tf tfo fr = 0 ∨
    feeRateNew cfg ub flow tf tfo fr = FEE_LOCK_RATE := by
  have hmm : cfg.min_fee_rate ≤ cfg.max_fee_rate := by linarith
  simp only [feeRateNew]
  split_ifs
  · exact Or.inl ⟨le_refl _, hmm⟩
  · exact Or.inl ⟨by linarith, by linarith⟩
  · exact Or.inr (Or.inr rfl)
  · exact Or.inl ⟨by linarith, by linarith⟩
  · exact Or.inr (Or.inl rfl)
  · exact Or.inl ⟨le_refl _, hmm⟩
  · exact Or.inl ⟨le_min (le_max_left _ _) hmm, min_le_right _ _⟩

/-- Claim C1 counterexample: with the narrow band `[0.0002, 0.0003]`
(`min_fee_rate ≤ max_fee_rate` holds), an initialization run whose weighted
change is at least 1 writes `max_fee_rate / 2 = 0.00015`, which lies below the
band and is neither `0` nor `FEE_LOCK_RATE`. -/
theorem C1_band_counterexample :
    cfgInitTight.min_fee_rate ≤ cfgInitTight.max_fee_rate ∧
    new_fee_policy cfgInitTight [chanA] statsA polsA =
      [("cp1", { base_fee_msat := 20, fee_rate := 3 / 20000, cltv := 14 })] ∧
    (3 / 20000 : ℚ) < cfgInitTight.min_fee_rate ∧
    (3 / 20000 : ℚ) ≠ 0 ∧ (3 / 20000 : ℚ) ≠ FEE_LOCK_RATE := by
  refine ⟨by norm_num [cfgInitTight], ?_, by norm_num [cfgInitTight], by norm_num,
    by norm_num [FEE_LOCK_RATE]⟩
  norm_num [new_fee_policy, policyFor, dictInsert, feeRateNew, baseFeeNew, cfgInitTight,
    chanA, statsA, polsA, weightedChange, factor_unbalancedness, factor_flow,
    factor_demand_fee_rate, factor_demand_base_fee, round6, pyRoundInt, pyInt,
    FEE_LOCK_RATE, THRESHOLD_UB_OPEN, THRESHOLD_UB_CLOSE, min_def, max_def]

/-- Claim C1 (amended): for every channel processed in one run with
`0 ≤ min_fee_rate` and `2 * min_fee_rate ≤ max_fee_rate`, the fee rate written
to the output policy map lies in `[min_fee_rate, max_fee_rate]`, except that it
may equal exactly `0` (open mode) or exactly `FEE_LOCK_RATE` (locked mode), in
both the initialization branch and the steady-state branch with its mode
overlay. -/
theorem C1_band_amended (cfg : Config) (channels : List Channel)
    (stats : ℤ → Option ChannelStats) (pols : String → FeePolicy)
    (h0 : 0 ≤ cfg.min_fee_rate) (h1 : 2 * cfg.min_fee_rate ≤ cfg.max_fee_rate) :
    ∀ p ∈ new_fee_policy cfg channels stats pols,
      (cfg.min_fee_rate ≤ p.2.fee_rate ∧ p.2.fee_rate ≤ cfg.max_fee_rate) ∨
      p.2.fee_rate = 0 ∨ p.2.fee_rate = FEE_LOCK_RATE := by
  refine new_fee_policy_values cfg channels stats pols
    (fun o => (cfg.min_fee_rate ≤ o.fee_rate ∧ o.fee_rate ≤ cfg.max_fee_rate) ∨
      o.fee_rate = 0 ∨ o.fee_rate = FEE_LOCK_RATE) ?_
  intro ch _
  simp only [policyFor]
  exact feeRateNew_mem cfg _ _ _ _ _ h0 h1

/-- Claim C1 witness: the amended statement instantiated at a concrete run. -/
theorem C1_band_amended_witness :
    (cfgSteady.min_fee_rate ≤
        (policyFor cfgSteady chanA (statsA chanA.channel_id) polsA).fee_rate ∧
      (policyFor cfgSteady chanA (statsA chanA.channel_id) polsA).fee_rate ≤
        cfgSteady.max_fee_rate) ∨
    (policyFor cfgSteady chanA (statsA chanA.channel_id) polsA).fee_rate = 0 ∨
    (policyFor cfgSteady chanA (statsA chanA.channel_id) polsA).fee_rate =
      FEE_LOCK_RATE :=
  C1_band_amended cfgSteady [chanA] statsA polsA (by norm_num [cfgSteady])
    (by norm_num [cfgSteady])
    (chanA.channel_point, policyFor cfgSteady chanA (statsA chanA.channel_id) polsA)
    (by simp [new_fee_policy, dictInsert])

theorem dictInsert_of_not_mem {k : String} {v : OutPolicy}
    {l : List (String × OutPolicy)} (h : k ∉ l.map Prod.fst) :
    dictInsert k v l = l ++ [(k, v)] := by
  induction l with
  | nil => rfl
  | cons q rest ih =>
      rcases q with ⟨k0, v0⟩
      simp only [List.map_cons, List.mem_cons, not_or] at h
      simp only [dictInsert, if_neg (fun hh : k0 = k => h.1 hh.symm), List.cons_append,
        List.cons.injEq, true_and]
      exact ih h.2

theorem foldl_dictInsert_eq (f : Channel → OutPolicy) :
    ∀ (channels : List Channel) (acc : List (String × OutPolicy)),
      (channels.map Channel.channel_point).Nodup →
      (∀ ch ∈ channels, ch.channel_point ∉ acc.map Prod.fst) →
      channels.foldl (fun acc ch => dictInsert ch.channel_point (f ch) acc) acc =
        acc ++ channels.map (fun ch => (ch.channel_point, f ch)) := by
  intro channels
  induction channels with
  | nil =>
      intro acc _ _
      simp
  | cons ch rest ih =>
      intro acc hnd hdisj
      simp only [List.map_cons, List.nodup_cons] at hnd
      simp only [List.foldl_cons]
      rw [dictInsert_of_not_mem (hdisj ch (List.mem_cons_self _ _))]
      have hdisj2 : ∀ c ∈ rest,
          c.channel_point ∉ (acc ++ [(ch.channel_point, f ch)]).map Prod.fst := by
        intro c hc
        simp only [List.map_append, List.mem_append, List.map_cons, List.map_nil,
          List.mem_singleton, not_or]
        refine ⟨hdisj c (List.mem_cons_of_mem _ hc), fun hh => hnd.1 ?_⟩
        rw [← hh]
        exact List.mem_map_of_mem Channel.channel_point hc
      rw [ih (acc ++ [(ch.channel_point, f ch)]) hnd.2 hdisj2]
      simp

/-- Claim C6: when the channels of the snapshot carry pairwise distinct
`channel_point` keys (each present in the current-policy map, modelled here as
a total function), the output policy map has exactly one entry per input
channel, in order, none dropped or duplicated, and every entry carries the
configured time-lock delta. -/
theorem C6_one_entry_per_channel (cfg : Config) (channels : List Channel)
    (stats : ℤ → Option ChannelStats) (pols : String → FeePolicy)
    (hnd : (channels.map Channel.channel_point).Nodup) :
    new_fee_policy cfg channels stats pols =
      channels.map
        (fun ch => (ch.channel_point, policyFor cfg ch (stats ch.channel_id) pols)) ∧
    ∀ p ∈ new_fee_policy cfg channels stats pols, p.2.cltv = cfg.cltv := by
  constructor
  · exact foldl_dictInsert_eq
      (fun ch => policyFor cfg ch (stats ch.channel_id) pols) channels [] hnd
      (by simp)
  · exact new_fee_policy_values cfg channels stats pols (fun o => o.cltv = cfg.cltv)
      (fun ch _ => rfl)

/-- Claim C6 witness: two channels with distinct `channel_point`s produce
exactly their two entries in order. -/
theorem C6_one_entry_per_channel_witness :
    new_fee_policy cfgSteady [chanA, chanB] statsA polsA =
      [(chanA.channel_point, policyFor cfgSteady chanA (statsA chanA.channel_id) polsA),
       (chanB.channel_point, policyFor cfgSteady chanB (statsA chanB.channel_id) polsA)] :=
  (C6_one_entry_per_channel cfgSteady [chanA, chanB] statsA polsA
    (by simp [chanA, chanB])).1

theorem policyFor_congr (cfg : Config) {c d : Channel} {s t : Option ChannelStats}
    (pols : String → FeePolicy) (hc : chanAgree c d) (hs : optStatsAgree s t) :
    policyFor cfg c s pols = policyFor cfg d t pols := by
  obtain ⟨-, h2, h3⟩ := hc
  cases s with
  | none =>
      cases t with
      | none => simp [policyFor, h2, h3]
      | some t0 => simp only [optStatsAgree] at hs
  | some s0 =>
      cases t with
      | none => simp only [optStatsAgree] at hs
      | some t0 =>
          simp only [optStatsAgree, statsAgree] at hs
          obtain ⟨g1, g2, g3, g4⟩ := hs
          simp [policyFor, h2, h3, g1, g2, g3, g4]

/-- Claim C9: the output policy map does not depend on `capacity`,
`fees_total` or `number_forwardings`: two runs with the same configuration and
current policies whose channels agree on everything but `capacity` and whose
statistics agree on everything but `fees_total` and `number_forwardings`
produce identical policy maps. -/
theorem C9_noninterference (cfg : Config) (channels1 channels2 : List Channel)
    (stats1 stats2 : ℤ → Option ChannelStats) (pols : String → FeePolicy)
    (hch : List.Forall₂ chanAgree channels1 channels2)
    (hst : ∀ i, optStatsAgree (stats1 i) (stats2 i)) :
    new_fee_policy cfg channels1 stats1 pols =
      new_fee_policy cfg channels2 stats2 pols := by
  suffices h : ∀ acc : List (String × OutPolicy),
      channels1.foldl (fun acc ch => dictInsert ch.channel_point
        (policyFor cfg ch (stats1 ch.channel_id) pols) acc) acc =
      channels2.foldl (fun acc ch => dictInsert ch.channel_point
        (policyFor cfg ch (stats2 ch.channel_id) pols) acc) acc by
    exact h []
  induction hch with
  | nil =>
      intro acc
      rw [List.foldl_nil, List.foldl_nil]
  | @cons c d l1 l2 hcd hrest ih =>
      intro acc
      rw [List.foldl_cons, List.foldl_cons]
      have hpol : policyFor cfg c (stats1 c.channel_id) pols =
          policyFor cfg d (stats2 d.channel_id) pols := by
        refine policyFor_congr cfg pols hcd ?_
        rw [hcd.1]
        exact hst d.channel_id
      rw [hcd.2.1, hpol]
      exact ih _

/-- Claim C9 witness: changing only `capacity`, `fees_total` and
`number_forwardings` leaves the output policy map unchanged. -/
theorem C9_noninterference_witness :
    new_fee_policy cfgSteady [chanA] statsA polsA =
      new_fee_policy cfgSteady [chanA2] statsA2 polsA :=
  C9_noninterference cfgSteady [chanA] [chanA2] statsA statsA2 polsA
    (List.Forall₂.cons ⟨rfl, rfl, rfl⟩ List.Forall₂.nil)
    (fun _ => ⟨rfl, rfl, rfl, rfl⟩)

end FeeSetting
